import Mathlib

/-!
Shallow embedding of the action-id demo application:
the backend account store and auth handlers (models/user.ts,
controllers/authController.ts) and the client-side liveness heuristic
of the login page (frontend/src/pages of the repository).

Machine strings are Lean `String`, booleans are `Bool`, the SQL row
store is a `List UserRec` threaded explicitly.  The bcrypt hash and
compare primitives are external library calls and appear as function
parameters.  JavaScript string falsiness (`!s`) holds exactly for the
empty string or an absent field, modelled with `Option String`.
-/

namespace ActionId

/-- One row of the `users` table: id, email, password_hash, enrolled. -/
structure UserRec where
  id : String
  email : String
  passwordHash : String
  enrolled : Bool
deriving DecidableEq

/-- Model of JavaScript `String.prototype.toLowerCase` on the ASCII
range used by the backend for emails: uppercase A-Z maps down, all
other characters are unchanged. -/
def jsLowerChar (c : Char) : Char :=
  if 65 ≤ c.toNat ∧ c.toNat ≤ 90 then Char.ofNat (c.toNat + 32) else c

/-- Lowercasing applied to every character of the string. -/
def jsToLower (s : String) : String := ⟨s.data.map jsLowerChar⟩

/-- JavaScript falsiness of an optional string field: absent or empty. -/
def jsStrFalsy (s : Option String) : Bool := s.getD "" == ""

/-- `User.findByEmail`: SELECT * FROM users WHERE email = lower(input),
returning the first matching row. -/
def findByEmail (store : List UserRec) (email : String) : Option UserRec :=
  store.find? (fun u => u.email == jsToLower email)

/-- `User.findById`: SELECT * FROM users WHERE id = input. -/
def findById (store : List UserRec) (id : String) : Option UserRec :=
  store.find? (fun u => u.id == id)

/-- `User.create`: INSERT a row with lowercased email and enrolled=false. -/
def createUser (store : List UserRec) (newId email passwordHash : String) :
    UserRec × List UserRec :=
  let u : UserRec := ⟨newId, jsToLower email, passwordHash, false⟩
  (u, store ++ [u])

/-- Row-level effect of the UPDATE of `User.markEnrolled`: the row whose
id matches gets enrolled := true, every other row is unchanged. -/
def enrollRow (userId : String) (u : UserRec) : UserRec :=
  if u.id == userId then { u with enrolled := true } else u

/-- `User.markEnrolled`: UPDATE users SET enrolled = true WHERE id = input
RETURNING *; yields the updated store and the returned row (none when no
row matched). -/
def markEnrolled (store : List UserRec) (userId : String) :
    List UserRec × Option UserRec :=
  let store1 := store.map (enrollRow userId)
  (store1, store1.find? (fun u => u.id == userId))

/-- Response of the register handler. -/
inductive RegisterRes where
  | created (u : UserRec)
  | err (status : Nat) (msg : String)
deriving DecidableEq

/-- Response of the login handler. -/
inductive LoginRes where
  | ok (u : UserRec)
  | err (status : Nat) (msg : String)
deriving DecidableEq

/-- Response of the verify-biometric handler. -/
inductive VerifyRes where
  | verified
  | err (status : Nat) (msg : String)
deriving DecidableEq

/-- Response of the enroll/complete handler. -/
inductive EnrollRes where
  | enrolledOk
  | err (status : Nat) (msg : String)
deriving DecidableEq

/-- The `register` handler: field presence check, duplicate check via
`findByEmail`, then `createUser` with the bcrypt hash of the password.
`hash` stands for `bcrypt.hash`, `newId` for the generated row id. -/
def register (store : List UserRec) (hash : String → String)
    (newId email password : String) : RegisterRes × List UserRec :=
  if email == "" || password == "" then
    (.err 400 "Email and password are required", store)
  else
    match findByEmail store email with
    | some _ => (.err 400 "User already exists", store)
    | none =>
      let p := createUser store newId email (hash password)
      (.created p.1, p.2)

/-- The `login` handler: field presence check, account lookup, then
password comparison.  `bcompare` stands for `bcrypt.compare`. -/
def login (store : List UserRec) (bcompare : String → String → Bool)
    (email password : String) : LoginRes :=
  if email == "" || password == "" then
    .err 400 "Email and password are required"
  else
    match findByEmail store email with
    | none => .err 401 "Invalid credentials"
    | some u =>
      if bcompare password u.passwordHash then .ok u
      else .err 401 "Invalid credentials"

/-- Hex digit as matched by the case-insensitive regex class [0-9a-f]. -/
def isHexDigit (c : Char) : Bool :=
  (48 ≤ c.toNat && c.toNat ≤ 57) ||
  (97 ≤ c.toNat && c.toNat ≤ 102) ||
  (65 ≤ c.toNat && c.toNat ≤ 70)

/-- The CSID format test: the anchored regex
8-4-4-4-12 hex groups separated by dashes, case-insensitive. -/
def uuidShape (s : String) : Bool :=
  let cs := s.data
  cs.length == 36 &&
    (List.range 36).all (fun i =>
      if i == 8 || i == 13 || i == 18 || i == 23 then cs.getD i ' ' == '-'
      else isHexDigit (cs.getD i ' '))

/-- The `verifyBiometric` handler for an authenticated user with the
given enrolled flag.  The checks run in source order; the handler
returns right after the success response, so the 403 branch that
follows it in the source is dead code and has no counterpart here. -/
def verifyBiometric (enrolled : Bool) (csid : Option String)
    (videoValidated : Bool) : VerifyRes :=
  if jsStrFalsy csid then .err 400 "CSID is required"
  else if !videoValidated then
    .err 400 "Video stream validation required. Camera must be active and capturing."
  else if !uuidShape (csid.getD "") then .err 400 "Invalid CSID format"
  else if !enrolled then
    .err 400 "User must complete enrollment before biometric verification"
  else .verified

/-- The `completeEnrollment` handler: presence check on csid, then
`markEnrolled` whose result is ignored, then the enrolled:true response. -/
def completeEnrollment (store : List UserRec) (userId : String)
    (csid : Option String) : EnrollRes × List UserRec :=
  if jsStrFalsy csid then (.err 400 "CSID is required", store)
  else
    let p := markEnrolled store userId
    (.enrolledOk, p.1)

/-!
Client-side liveness heuristic of the login page
(`handleBiometricVerification`): an interval fires once per 500 ms; each
tick derives one boolean validity sample from the four stream signals
(video element present, playing, active stream, live enabled unmuted
sized track), maintains a consecutive-valid counter, and exits with
failure at the attempt budget or with success at the required streak.
A tick is modelled by its validity boolean; the loop by structural
recursion over the list of samples, one list element per tick.
-/

/-- `requiredValidCaptures` of the source: 20 consecutive valid ticks. -/
def requiredValidCaptures : Nat := 20

/-- `maxAttempts` of the source: 30 ticks of 500 ms. -/
def maxAttempts : Nat := 30

/-- Counter update of one tick: a valid sample increments the
consecutive-valid counter, an invalid sample resets it to zero. -/
def streakStep (count : Nat) (valid : Bool) : Nat :=
  if valid then count + 1 else 0

/-- Outcome of the capture-checking interval: success (streak reached),
timeout failure (budget exhausted below the streak), or still pending
when the supplied tick list ran out first. -/
inductive CaptureOutcome where
  | success
  | failTimeout
  | pending
deriving DecidableEq

/-- The interval body, tick by tick: increment the attempt counter,
update the streak counter, fail when the budget is reached below the
required streak, apply the source's (redundant) second reset, succeed
when the streak is reached, otherwise keep polling. -/
def captureLoop : Nat → Nat → List Bool → CaptureOutcome
  | _, _, [] => .pending
  | attempts, validCount, s :: rest =>
    let attempts1 := attempts + 1
    let count1 := streakStep validCount s
    if maxAttempts ≤ attempts1 ∧ count1 < requiredValidCaptures then .failTimeout
    else
      let count2 := if 0 < count1 ∧ s = false then 0 else count1
      if requiredValidCaptures ≤ count2 then .success
      else captureLoop attempts1 count2 rest

/-- The heuristic run from a fresh attempt: both counters start at 0. -/
def runCapture (samples : List Bool) : CaptureOutcome := captureLoop 0 0 samples

/-- One RGB pixel of the offscreen raster buffer (the alpha byte is
skipped by the sampling loop). -/
structure Pixel where
  r : Nat
  g : Nat
  b : Nat
deriving DecidableEq

/-- The source counts a pixel as non-black when any channel exceeds 30. -/
def nonBlack (p : Pixel) : Bool := 30 < p.r || 30 < p.g || 30 < p.b

/-- The covered-camera content check on a frame (row-major pixel list):
sample the first `min(4·n, 10000)/4 = min(n, 2500)` pixels, count the
non-black ones, and fail when their fraction of the sampled count is
strictly below 5%.  `nonBlackCount / sampledCount < 0.05` on these
ranges is exactly `20 · nonBlackCount < sampledCount` (both sides of
the float comparison are within half an ulp of the rational values, so
the double rounding never crosses the threshold). -/
def coveredCameraFailure (frame : List Pixel) : Bool :=
  let sampled := frame.take 2500
  let nonBlackCount := (sampled.filter nonBlack).length
  decide (20 * nonBlackCount < sampled.length)

/-- A 2500-pixel frame whose pixel population is exactly 95% pure black
and 5% pure white. -/
def frameA : List Pixel :=
  List.replicate 2375 ⟨0, 0, 0⟩ ++ List.replicate 125 ⟨255, 255, 255⟩

/-- A 50000-pixel frame, 95% black overall, whose first 2500 pixels
(the sampled prefix) are all pure white. -/
def frameB : List Pixel :=
  List.replicate 2500 ⟨255, 255, 255⟩ ++ List.replicate 47500 ⟨0, 0, 0⟩

/-!  Helper lemmas. -/

lemma count2_eq (c : Nat) (s : Bool) :
    (if 0 < streakStep c s ∧ s = false then 0 else streakStep c s) = streakStep c s := by
  cases s <;> simp [streakStep]

lemma captureLoop_success_iff (l : List Bool) : ∀ a c, a + l.length = maxAttempts →
    (captureLoop a c l = .success ↔
      ∃ k, 1 ≤ k ∧ k ≤ l.length ∧ requiredValidCaptures ≤ (l.take k).foldl streakStep c) := by
  induction l with
  | nil =>
    intro a c _
    constructor
    · intro hs; simp [captureLoop] at hs
    · rintro ⟨k, hk1, hk2, -⟩; simp at hk2; omega
  | cons s rest ih =>
    intro a c h
    rw [show captureLoop a c (s :: rest) =
        (if maxAttempts ≤ a + 1 ∧ streakStep c s < requiredValidCaptures then .failTimeout
         else
           if requiredValidCaptures ≤ streakStep c s then .success
           else captureLoop (a + 1) (streakStep c s) rest) from by
      simp only [captureLoop, count2_eq]]
    by_cases hto : maxAttempts ≤ a + 1 ∧ streakStep c s < requiredValidCaptures
    · rw [if_pos hto]
      have hrest : rest.length = 0 := by
        have := hto.1; simp [List.length_cons] at h; omega
      constructor
      · intro hx; exact absurd hx (by simp)
      · rintro ⟨k, hk1, hk2, hk3⟩
        simp [List.length_cons, hrest] at hk2
        have hk : k = 1 := by omega
        subst hk
        simp [List.take_succ_cons, List.take_zero] at hk3
        omega
    · rw [if_neg hto]
      by_cases hsucc : requiredValidCaptures ≤ streakStep c s
      · rw [if_pos hsucc]
        constructor
        · intro _
          exact ⟨1, le_refl 1, by simp [List.length_cons], by
            simpa [List.take_succ_cons, List.take_zero] using hsucc⟩
        · intro _; rfl
      · rw [if_neg hsucc]
        have hlen : a + 1 + rest.length = maxAttempts := by
          simp [List.length_cons] at h; omega
        rw [ih (a + 1) (streakStep c s) hlen]
        constructor
        · rintro ⟨k, hk1, hk2, hk3⟩
          refine ⟨k + 1, by omega, by simp [List.length_cons]; omega, ?_⟩
          simpa [List.take_succ_cons, List.foldl_cons] using hk3
        · rintro ⟨k, hk1, hk2, hk3⟩
          cases k with
          | zero => omega
          | succ m =>
            have hm1 : 1 ≤ m := by
              by_contra hm
              have : m = 0 := by omega
              subst this
              simp [List.take_succ_cons, List.take_zero, List.foldl_cons] at hk3
              exact hsucc hk3
            refine ⟨m, hm1, by simp [List.length_cons] at hk2; omega, ?_⟩
            simpa [List.take_succ_cons, List.foldl_cons] using hk3

lemma captureLoop_resolves (l : List Bool) : ∀ a c, a + l.length = maxAttempts →
    1 ≤ l.length → captureLoop a c l ≠ .pending := by
  induction l with
  | nil => intro a c _ h1; simp at h1
  | cons s rest ih =>
    intro a c h _
    rw [show captureLoop a c (s :: rest) =
        (if maxAttempts ≤ a + 1 ∧ streakStep c s < requiredValidCaptures then .failTimeout
         else
           if requiredValidCaptures ≤ streakStep c s then .success
           else captureLoop (a + 1) (streakStep c s) rest) from by
      simp only [captureLoop, count2_eq]]
    by_cases hto : maxAttempts ≤ a + 1 ∧ streakStep c s < requiredValidCaptures
    · rw [if_pos hto]; simp
    · rw [if_neg hto]
      by_cases hsucc : requiredValidCaptures ≤ streakStep c s
      · rw [if_pos hsucc]; simp
      · rw [if_neg hsucc]
        have hlen : a + 1 + rest.length = maxAttempts := by
          simp [List.length_cons] at h; omega
        have hrest : 1 ≤ rest.length := by
          by_contra hr
          have h0 : rest.length = 0 := by omega
          rw [h0] at hlen
          exact hto ⟨by omega, by omega⟩
        exact ih (a + 1) (streakStep c s) hlen hrest

lemma foldl_streakStep_replicate (n c : Nat) :
    (List.replicate n true).foldl streakStep c = c + n := by
  induction n generalizing c with
  | zero => simp
  | succ m ih =>
    rw [List.replicate_succ, List.foldl_cons, ih]
    simp [streakStep]
    omega

lemma exists_true_run (p : List Bool) (n : Nat) (h : n ≤ p.foldl streakStep 0) :
    ∃ q, p = q ++ List.replicate n true := by
  induction p using List.reverseRecOn generalizing n with
  | nil =>
    simp at h
    exact ⟨[], by simp [h]⟩
  | append_singleton p b ih =>
    rw [List.foldl_append] at h
    cases b with
    | false =>
      simp [streakStep] at h
      exact ⟨p ++ [false], by simp [h]⟩
    | true =>
      cases n with
      | zero => exact ⟨p ++ [true], by simp⟩
      | succ m =>
        have hm : m ≤ p.foldl streakStep 0 := by
          simp [streakStep] at h; omega
        obtain ⟨q, hq⟩ := ih m hm
        refine ⟨q, ?_⟩
        rw [hq, List.append_assoc, ← List.replicate_succ']

lemma filter_not_length {α : Type} (p : α → Bool) (l : List α) :
    (l.filter p).length + (l.filter (fun a => !p a)).length = l.length := by
  induction l with
  | nil => simp
  | cons a t ih =>
    by_cases h : p a = true <;> simp [List.filter_cons, h] <;> omega

lemma frameA_len : frameA.length = 2500 := by
  rw [frameA, List.length_append, List.length_replicate, List.length_replicate]

lemma frameA_take : frameA.take 2500 = frameA :=
  List.take_of_length_le (by simp [frameA_len])

lemma frameA_nonBlack_len : (frameA.filter nonBlack).length = 125 := by
  rw [frameA, List.filter_append, List.filter_replicate, List.filter_replicate,
    if_neg (by decide : ¬(nonBlack ⟨0, 0, 0⟩ = true)),
    if_pos (by decide : nonBlack ⟨255, 255, 255⟩ = true),
    List.nil_append, List.length_replicate]

lemma frameA_dark_len : (frameA.filter (fun p => !nonBlack p)).length = 2375 := by
  rw [frameA, List.filter_append, List.filter_replicate, List.filter_replicate,
    if_pos (by decide : ((!nonBlack (⟨0, 0, 0⟩ : Pixel))) = true),
    if_neg (by decide : ¬(((!nonBlack (⟨255, 255, 255⟩ : Pixel))) = true)),
    List.append_nil, List.length_replicate]

lemma frameB_take : frameB.take 2500 = List.replicate 2500 ⟨255, 255, 255⟩ := by
  have hl : (List.replicate 2500 (Pixel.mk 255 255 255)).length = 2500 :=
    List.length_replicate 2500 _
  calc frameB.take 2500
      = (List.replicate 2500 (Pixel.mk 255 255 255) ++
          List.replicate 47500 (Pixel.mk 0 0 0)).take
          (List.replicate 2500 (Pixel.mk 255 255 255)).length := by rw [hl]; rfl
    _ = List.replicate 2500 ⟨255, 255, 255⟩ := List.take_left _ _

lemma frameB_len : frameB.length = 50000 := by
  rw [frameB, List.length_append, List.length_replicate, List.length_replicate]

lemma frameB_dark_len : (frameB.filter (fun p => !nonBlack p)).length = 47500 := by
  rw [frameB, List.filter_append, List.filter_replicate, List.filter_replicate,
    if_neg (by decide : ¬(((!nonBlack (⟨255, 255, 255⟩ : Pixel))) = true)),
    if_pos (by decide : ((!nonBlack (⟨0, 0, 0⟩ : Pixel))) = true),
    List.nil_append, List.length_replicate]

lemma enrollRow_idem (uid : String) (u : UserRec) :
    enrollRow uid (enrollRow uid u) = enrollRow uid u := by
  unfold enrollRow
  by_cases h : u.id = uid
  · simp [h]
  · simp [h]

lemma mem_zip_map {α : Type} (f : α → α) :
    ∀ (l : List α), ∀ p ∈ l.zip (l.map f), p.2 = f p.1 := by
  intro l
  induction l with
  | nil => intro p hp; simp at hp
  | cons a t ih =>
    intro p hp
    simp only [List.map_cons, List.zip_cons_cons, List.mem_cons] at hp
    rcases hp with h | h
    · rw [h]
    · exact ih p h

lemma map_enrollRow_idem (uid : String) (store : List UserRec) :
    (store.map (enrollRow uid)).map (enrollRow uid) = store.map (enrollRow uid) := by
  rw [List.map_map]
  apply List.map_congr_left
  intro a _
  exact enrollRow_idem uid a

/-!  Claim theorems. -/

/-- C1: the verify-biometric decision checks apply in a fixed order, the
first failing condition winning: missing csid rejects with "CSID is
required"; then a false liveness flag rejects with the video-stream
reason; then a non-UUID csid rejects with "Invalid CSID format"; then an
unenrolled account rejects with the must-enroll reason; otherwise the
request is accepted.  In particular an enrolled account with
videoValidated=false and a malformed csid gets the liveness reason, not
the format one. -/
theorem verify_policy_fixed_order :
    (∀ e c v, jsStrFalsy c = true →
      verifyBiometric e c v = .err 400 "CSID is required") ∧
    (∀ e c, jsStrFalsy c = false →
      verifyBiometric e c false =
        .err 400 "Video stream validation required. Camera must be active and capturing.") ∧
    (∀ e c, jsStrFalsy c = false → uuidShape (c.getD "") = false →
      verifyBiometric e c true = .err 400 "Invalid CSID format") ∧
    (∀ c, jsStrFalsy c = false → uuidShape (c.getD "") = true →
      verifyBiometric false c true =
        .err 400 "User must complete enrollment before biometric verification") ∧
    (∀ c, jsStrFalsy c = false → uuidShape (c.getD "") = true →
      verifyBiometric true c true = .verified) ∧
    (∀ c, jsStrFalsy c = false → uuidShape (c.getD "") = false →
      verifyBiometric true c false =
        .err 400 "Video stream validation required. Camera must be active and capturing.") := by
  refine ⟨?_, ?_, ?_, ?_, ?_, ?_⟩
  · intro e c v h; simp [verifyBiometric, h]
  · intro e c h; simp [verifyBiometric, h]
  · intro e c h hu; simp [verifyBiometric, h, hu]
  · intro c h hu; simp [verifyBiometric, h, hu]
  · intro c h hu; simp [verifyBiometric, h, hu]
  · intro c h hu; simp [verifyBiometric, h, hu]

/-- C1 witness: an enrolled account, malformed csid, liveness flag false:
the rejection reason is the liveness one. -/
theorem verify_policy_fixed_order_witness :
    verifyBiometric true (some "not-a-uuid") false =
      .err 400 "Video stream validation required. Camera must be active and capturing." :=
  verify_policy_fixed_order.2.2.2.2.2 (some "not-a-uuid") (by decide) (by decide)

/-- C2: in the liveness sampling loop any invalid sample resets the
consecutive-valid counter to zero, and over a 30-tick attempt reaching
20 consecutive valid samples is necessary and sufficient to pass the
streak check, independent of how many invalid samples preceded the
streak; an attempt that never reaches the streak within the 30-sample
budget fails. -/
theorem capture_streak_iff :
    (∀ c, streakStep c false = 0) ∧
    (∀ samples : List Bool, samples.length = maxAttempts →
      (runCapture samples = .success ↔
        ∃ q r, samples = q ++ List.replicate requiredValidCaptures true ++ r)) ∧
    (∀ samples : List Bool, samples.length = maxAttempts →
      runCapture samples = .success ∨ runCapture samples = .failTimeout) := by
  refine ⟨?_, ?_, ?_⟩
  · intro c; rfl
  · intro samples hlen
    rw [runCapture, captureLoop_success_iff samples 0 0 (by simpa using hlen)]
    constructor
    · rintro ⟨k, hk1, hk2, hk3⟩
      obtain ⟨q, hq⟩ := exists_true_run (samples.take k) requiredValidCaptures hk3
      refine ⟨q, samples.drop k, ?_⟩
      calc samples = samples.take k ++ samples.drop k := (List.take_append_drop k samples).symm
        _ = q ++ List.replicate requiredValidCaptures true ++ samples.drop k := by rw [hq]
    · rintro ⟨q, r, hqr⟩
      refine ⟨q.length + requiredValidCaptures, by simp [requiredValidCaptures], ?_, ?_⟩
      · rw [hqr]; simp [List.length_append, List.length_replicate]
      · have htake : samples.take (q.length + requiredValidCaptures) =
            q ++ List.replicate requiredValidCaptures true := by
          rw [hqr]
          have hl : (q ++ List.replicate requiredValidCaptures true).length =
              q.length + requiredValidCaptures := by
            simp [List.length_append, List.length_replicate]
          rw [← hl, List.take_left]
        rw [htake, List.foldl_append, foldl_streakStep_replicate]
        omega
  · intro samples hlen
    cases hout : runCapture samples with
    | success => exact Or.inl rfl
    | failTimeout => exact Or.inr rfl
    | pending =>
      exact absurd hout
        (captureLoop_resolves samples 0 0 (by simpa using hlen) (by rw [hlen]; decide))

/-- C2 witness: ten invalid samples followed by twenty valid ones pass
the streak check within the 30-tick budget. -/
theorem capture_streak_iff_witness :
    runCapture (List.replicate 10 false ++ List.replicate 20 true) = .success :=
  (capture_streak_iff.2.1 (List.replicate 10 false ++ List.replicate 20 true)
      (by decide)).2
    ⟨List.replicate 10 false, [], by simp [requiredValidCaptures]⟩

/-- C3 counterexample: two frames with at least 95% of their pixels at
or below brightness 30 on all channels that nevertheless pass the
covered-camera check: frameA sits exactly on the 95% boundary (the
check requires strictly fewer than 5% non-black to fail), and frameB is
95% black overall but its 2500-pixel sampled prefix is all white. -/
theorem covered_check_95_counterexample :
    (19 * frameA.length ≤ 20 * (frameA.filter (fun p => !nonBlack p)).length ∧
      coveredCameraFailure frameA = false) ∧
    (19 * frameB.length ≤ 20 * (frameB.filter (fun p => !nonBlack p)).length ∧
      coveredCameraFailure frameB = false) := by
  refine ⟨⟨?_, ?_⟩, ⟨?_, ?_⟩⟩
  · rw [frameA_len, frameA_dark_len]
  · simp only [coveredCameraFailure]
    rw [frameA_take, frameA_nonBlack_len, frameA_len]
    decide
  · rw [frameB_len, frameB_dark_len]
  · have hf : ((frameB.take 2500).filter nonBlack).length = 2500 := by
      rw [frameB_take, List.filter_replicate,
        if_pos (by decide : nonBlack ⟨255, 255, 255⟩ = true), List.length_replicate]
    have hlen : (frameB.take 2500).length = 2500 := by
      rw [frameB_take, List.length_replicate]
    simp only [coveredCameraFailure]
    rw [hf, hlen]
    decide

/-- C3 amended: a frame in which strictly more than 95% of the sampled
prefix (the first min(n, 2500) pixels) are at or below brightness 30 on
all channels always fails the covered-camera check, regardless of the
rest of the frame and of stream metadata (which the check never
consults). -/
theorem covered_check_sampled_dark_fails (frame : List Pixel)
    (h : 19 * (frame.take 2500).length <
      20 * ((frame.take 2500).filter (fun p => !nonBlack p)).length) :
    coveredCameraFailure frame = true := by
  have hsum := filter_not_length nonBlack (frame.take 2500)
  have hlt : 20 * ((frame.take 2500).filter nonBlack).length <
      (frame.take 2500).length := by omega
  simp only [coveredCameraFailure]
  exact decide_eq_true hlt

/-- C3 amended witness: an all-black 2500-pixel frame fails the check. -/
theorem covered_check_sampled_dark_fails_witness :
    coveredCameraFailure (List.replicate 2500 ⟨0, 0, 0⟩) = true :=
  covered_check_sampled_dark_fails _ (by
    have ht : (List.replicate 2500 (Pixel.mk 0 0 0)).take 2500 =
        List.replicate 2500 (Pixel.mk 0 0 0) :=
      List.take_of_length_le (by rw [List.length_replicate])
    rw [ht, List.filter_replicate,
      if_pos (by decide : ((!nonBlack (⟨0, 0, 0⟩ : Pixel))) = true),
      List.length_replicate]
    decide)

/-- C4: enrollment completion with a present (non-empty) csid performs
no format validation, marks the authenticated account's row enrolled,
and responds enrolled:true; a missing or empty csid is rejected with a
400 validation error and the store is unchanged. -/
theorem enroll_complete_presence_only :
    (∀ store uid c, jsStrFalsy c = false →
      (completeEnrollment store uid c).1 = .enrolledOk ∧
      ∀ u ∈ (completeEnrollment store uid c).2, u.id = uid → u.enrolled = true) ∧
    (∀ store uid c, jsStrFalsy c = true →
      completeEnrollment store uid c = (.err 400 "CSID is required", store)) := by
  constructor
  · intro store uid c h
    constructor
    · simp [completeEnrollment, h]
    · intro u hu hid
      simp [completeEnrollment, h, markEnrolled, List.mem_map] at hu
      obtain ⟨v, hv, hvu⟩ := hu
      unfold enrollRow at hvu
      by_cases hb : v.id = uid
      · rw [if_pos (by simp [hb])] at hvu; rw [← hvu]
      · rw [if_neg (by simp [hb])] at hvu
        subst hvu
        exact absurd hid hb
  · intro store uid c h
    simp [completeEnrollment, h]

/-- C4 witness: a non-UUID csid is accepted and the response is
enrolled:true. -/
theorem enroll_complete_presence_only_witness :
    (completeEnrollment [⟨"u1", "a@b.c", "hh", false⟩] "u1" (some "not-a-uuid")).1 =
      .enrolledOk :=
  (enroll_complete_presence_only.1 [⟨"u1", "a@b.c", "hh", false⟩] "u1"
    (some "not-a-uuid") (by decide)).1

/-- C5: accounts are created with enrolled=false (registration appends
exactly the new row), and enrollment completion changes each stored row
at most by setting its enrolled flag to true, so the flag only
transitions false to true and is never reversed. -/
theorem enrolled_flag_monotone :
    (∀ store hash newId email password u store1,
      register store hash newId email password = (.created u, store1) →
      u.enrolled = false ∧ store1 = store ++ [u]) ∧
    (∀ store uid c, (completeEnrollment store uid c).2.length = store.length) ∧
    (∀ (store : List UserRec) (uid : String) (c : Option String),
      ∀ p ∈ store.zip (completeEnrollment store uid c).2,
      p.2 = p.1 ∨ p.2 = { p.1 with enrolled := true }) ∧
    (∀ (store : List UserRec) (uid : String) (c : Option String),
      ∀ p ∈ store.zip (completeEnrollment store uid c).2,
      p.1.enrolled = true → p.2.enrolled = true) := by
  have hshape : ∀ store uid c, (completeEnrollment store uid c).2 = store ∨
      (completeEnrollment store uid c).2 = store.map (enrollRow uid) := by
    intro store uid c
    unfold completeEnrollment
    by_cases h : jsStrFalsy c = true
    · rw [if_pos h]; exact Or.inl rfl
    · rw [if_neg h]; exact Or.inr rfl
  have hrow : ∀ uid (u : UserRec), enrollRow uid u = u ∨
      enrollRow uid u = { u with enrolled := true } := by
    intro uid u
    unfold enrollRow
    by_cases h : u.id = uid
    · rw [if_pos (by simp [h])]; exact Or.inr rfl
    · rw [if_neg (by simp [h])]; exact Or.inl rfl
  have hzip_id : ∀ (l : List UserRec), ∀ p ∈ l.zip l, p.2 = p.1 := by
    intro l
    induction l with
    | nil => intro p hp; simp at hp
    | cons a t ih =>
      intro p hp
      simp only [List.zip_cons_cons, List.mem_cons] at hp
      rcases hp with h | h
      · rw [h]
      · exact ih p h
  have hmain : ∀ (store : List UserRec) (uid : String) (c : Option String),
      ∀ p ∈ store.zip (completeEnrollment store uid c).2,
      p.2 = p.1 ∨ p.2 = { p.1 with enrolled := true } := by
    intro store uid c p hp
    rcases hshape store uid c with h | h
    · rw [h] at hp
      exact Or.inl (hzip_id store p hp)
    · rw [h] at hp
      have := mem_zip_map (enrollRow uid) store p hp
      rw [this]
      exact hrow uid p.1
  refine ⟨?_, ?_, hmain, ?_⟩
  · intro store hash newId email password u store1 hreg
    unfold register at hreg
    split at hreg
    · simp at hreg
    · split at hreg
      · simp at hreg
      · simp only [createUser, Prod.mk.injEq, RegisterRes.created.injEq] at hreg
        obtain ⟨h1, h2⟩ := hreg
        subst h1
        exact ⟨rfl, h2.symm⟩
  · intro store uid c
    rcases hshape store uid c with h | h
    · rw [h]
    · rw [h]; simp
  · intro store uid c p hp hen
    rcases hmain store uid c p hp with h | h <;> rw [h]
    exact hen

/-- C5 witness: registering into an empty store creates the one row
with enrolled=false. -/
theorem enrolled_flag_monotone_witness :
    (⟨"id1", "a@b.c", "pw", false⟩ : UserRec).enrolled = false ∧
    ([⟨"id1", "a@b.c", "pw", false⟩] : List UserRec) =
      [] ++ [⟨"id1", "a@b.c", "pw", false⟩] :=
  enrolled_flag_monotone.1 [] (fun s => s) "id1" "a@b.c" "pw"
    ⟨"id1", "a@b.c", "pw", false⟩ [⟨"id1", "a@b.c", "pw", false⟩] (by decide)

/-- C6 counterexample: a registration attempt whose email is already
present case-insensitively but whose password is empty is rejected with
the field-validation message, not with "User already exists". -/
theorem register_duplicate_empty_password_cx :
    (∃ u ∈ ([⟨"1", "a@b.c", "hh", false⟩] : List UserRec),
      jsToLower u.email = jsToLower "A@B.C") ∧
    (register [⟨"1", "a@b.c", "hh", false⟩] (fun s => s) "2" "A@B.C" "").1 =
      .err 400 "Email and password are required" ∧
    (register [⟨"1", "a@b.c", "hh", false⟩] (fun s => s) "2" "A@B.C" "").1 ≠
      .err 400 "User already exists" := by
  exact ⟨by decide, by decide, by decide⟩

/-- C6 amended: every registration attempt with non-empty email and
password whose email is already present case-insensitively (stored
emails being lowercase, as creation guarantees) is rejected with HTTP
400 "User already exists" and the store is unchanged. -/
theorem register_duplicate_rejected (store : List UserRec) (hash : String → String)
    (newId email password : String)
    (hlow : ∀ u ∈ store, jsToLower u.email = u.email)
    (he : ¬email = "") (hp : ¬password = "")
    (hdup : ∃ u ∈ store, jsToLower u.email = jsToLower email) :
    register store hash newId email password =
      (.err 400 "User already exists", store) := by
  obtain ⟨u, hu, hmatch⟩ := hdup
  have hfind : (findByEmail store email).isSome := by
    rw [findByEmail, List.find?_isSome]
    exact ⟨u, hu, by rw [beq_iff_eq, ← hlow u hu, hmatch]⟩
  obtain ⟨v, hv⟩ := Option.isSome_iff_exists.mp hfind
  unfold register
  rw [if_neg (by simp [he, hp]), hv]

/-- C6 amended witness: a duplicate differing only in case is rejected
with "User already exists" and the store is unchanged. -/
theorem register_duplicate_rejected_witness :
    register [⟨"1", "a@b.c", "hh", false⟩] (fun s => s) "2" "A@B.C" "pw" =
      (.err 400 "User already exists", [⟨"1", "a@b.c", "hh", false⟩]) :=
  register_duplicate_rejected [⟨"1", "a@b.c", "hh", false⟩] (fun s => s) "2"
    "A@B.C" "pw" (by decide) (by decide) (by decide)
    ⟨⟨"1", "a@b.c", "hh", false⟩, by decide, by decide⟩

/-- C7 counterexample: a login attempt with an unknown email and an
empty password is rejected with the 400 field-validation message, not
with the uniform 401 "Invalid credentials". -/
theorem login_empty_password_cx :
    findByEmail [⟨"1", "a@b.c", "hh", false⟩] "nobody@x.c" = none ∧
    login [⟨"1", "a@b.c", "hh", false⟩] (fun p s => p == s) "nobody@x.c" "" =
      .err 400 "Email and password are required" ∧
    login [⟨"1", "a@b.c", "hh", false⟩] (fun p s => p == s) "nobody@x.c" "" ≠
      .err 401 "Invalid credentials" := by
  exact ⟨by decide, by decide, by decide⟩

/-- C7 amended: for every login attempt with non-empty email and
password, success holds exactly when the email resolves to a stored
account whose stored hash the submitted password matches; every
non-successful such attempt, whether the email is unknown or the
password wrong, yields the identical 401 "Invalid credentials"
response, so the two failure causes are indistinguishable. -/
theorem login_success_iff_uniform_failure (store : List UserRec)
    (bcompare : String → String → Bool) (email password : String)
    (he : ¬email = "") (hp : ¬password = "") :
    ((∃ u, login store bcompare email password = .ok u) ↔
      ∃ u, findByEmail store email = some u ∧
        bcompare password u.passwordHash = true) ∧
    ((∀ u, login store bcompare email password ≠ .ok u) →
      login store bcompare email password = .err 401 "Invalid credentials") := by
  unfold login
  rw [if_neg (by simp [he, hp])]
  cases hfind : findByEmail store email with
  | none =>
    constructor
    · constructor
      · rintro ⟨u, hu⟩; cases hu
      · rintro ⟨u, hu, -⟩; cases hu
    · intro _; rfl
  | some u =>
    dsimp only
    by_cases hbc : bcompare password u.passwordHash = true
    · rw [if_pos hbc]
      constructor
      · constructor
        · intro _; exact ⟨u, rfl, hbc⟩
        · intro _; exact ⟨u, rfl⟩
      · intro hno; exact absurd rfl (hno u)
    · rw [if_neg hbc]
      constructor
      · constructor
        · rintro ⟨v, hv⟩; cases hv
        · rintro ⟨v, hv, hbv⟩
          injection hv with hv
          subst hv
          exact absurd hbv hbc
      · intro _; rfl

/-- C7 amended witness: a known email with a wrong password receives
the uniform 401 response. -/
theorem login_success_iff_uniform_failure_witness :
    login [⟨"1", "a@b.c", "hh", false⟩] (fun p s => p == s) "a@b.c" "wrong" =
      .err 401 "Invalid credentials" :=
  (login_success_iff_uniform_failure [⟨"1", "a@b.c", "hh", false⟩]
      (fun p s => p == s) "a@b.c" "wrong" (by decide) (by decide)).2
    (fun u hu => by
      rw [show login [⟨"1", "a@b.c", "hh", false⟩] (fun p s => p == s)
            "a@b.c" "wrong" = LoginRes.err 401 "Invalid credentials" from by decide] at hu
      cases hu)

/-- C8: enrollment completion with a non-empty csid is idempotent: both
calls respond enrolled:true, the second call leaves the store exactly
as the first left it, and the account's row stays enrolled. -/
theorem enroll_complete_idempotent (store : List UserRec) (uid : String)
    (c : Option String) (h : jsStrFalsy c = false) :
    (completeEnrollment store uid c).1 = .enrolledOk ∧
    (completeEnrollment (completeEnrollment store uid c).2 uid c).1 = .enrolledOk ∧
    (completeEnrollment (completeEnrollment store uid c).2 uid c).2 =
      (completeEnrollment store uid c).2 ∧
    ∀ u ∈ (completeEnrollment store uid c).2, u.id = uid → u.enrolled = true := by
  refine ⟨by simp [completeEnrollment, h], by simp [completeEnrollment, h], ?_, ?_⟩
  · simp only [completeEnrollment, h, Bool.false_eq_true, if_false, markEnrolled]
    exact map_enrollRow_idem uid store
  · intro u hu hid
    simp only [completeEnrollment, h, Bool.false_eq_true, if_false, markEnrolled,
      List.mem_map] at hu
    obtain ⟨v, hv, hvu⟩ := hu
    unfold enrollRow at hvu
    by_cases hb : v.id = uid
    · rw [if_pos (by simp [hb])] at hvu; rw [← hvu]
    · rw [if_neg (by simp [hb])] at hvu
      subst hvu
      exact absurd hid hb

/-- C8 witness: the second completion on a concrete one-row store
succeeds with enrolled:true. -/
theorem enroll_complete_idempotent_witness :
    (completeEnrollment
        (completeEnrollment [⟨"u1", "a@b.c", "hh", false⟩] "u1" (some "s1")).2
        "u1" (some "s1")).1 = .enrolledOk :=
  (enroll_complete_idempotent [⟨"u1", "a@b.c", "hh", false⟩] "u1" (some "s1")
    (by decide)).2.1

/-- C9: every verify-biometric request that passes the four checks is
answered verified:true, and no input ever produces an HTTP 403
response: the 403 branch in the source sits after an unconditional
return and is unreachable. -/
theorem verify_never_403 :
    (∀ e c v, jsStrFalsy c = false → v = true → uuidShape (c.getD "") = true →
      e = true → verifyBiometric e c v = .verified) ∧
    (∀ e c v msg, verifyBiometric e c v ≠ .err 403 msg) := by
  constructor
  · intro e c v h1 h2 h3 h4; subst h2; subst h4; simp [verifyBiometric, h1, h3]
  · intro e c v msg
    unfold verifyBiometric
    split
    · simp
    · split
      · simp
      · split
        · simp
        · split <;> simp

/-- C9 witness: a fully valid request is answered verified:true. -/
theorem verify_never_403_witness :
    verifyBiometric true (some "12345678-1234-1234-1234-123456789abc") true =
      .verified :=
  verify_never_403.1 true (some "12345678-1234-1234-1234-123456789abc") true
    (by decide) rfl (by decide) rfl

/-- C10: enrollment completion ignores the store update's result: when
no stored row carries the authenticated account's id, the UPDATE
returns no row (markEnrolled yields none), yet the endpoint still
responds enrolled:true and the store is unmodified. -/
theorem enroll_complete_ignores_update_result (store : List UserRec) (uid : String)
    (c : Option String) (h : jsStrFalsy c = false)
    (habs : ∀ u ∈ store, u.id ≠ uid) :
    (completeEnrollment store uid c).1 = .enrolledOk ∧
    (completeEnrollment store uid c).2 = store ∧
    (markEnrolled store uid).2 = none := by
  have hrows : ∀ u ∈ store, enrollRow uid u = u := by
    intro u hu
    unfold enrollRow
    rw [if_neg (by simp [habs u hu])]
  have hmap : store.map (enrollRow uid) = store := by
    calc store.map (enrollRow uid) = store.map id := List.map_congr_left hrows
      _ = store := List.map_id store
  refine ⟨by simp [completeEnrollment, h], ?_, ?_⟩
  · simp only [completeEnrollment, h, Bool.false_eq_true, if_false, markEnrolled]
    exact hmap
  · simp only [markEnrolled, hmap]
    exact List.find?_eq_none.mpr (fun u hu => by simp [habs u hu])

/-- C10 witness: an id absent from the store still gets enrolled:true
and the store stays as it was. -/
theorem enroll_complete_ignores_update_result_witness :
    (completeEnrollment [⟨"u1", "a@b.c", "hh", false⟩] "ghost" (some "s1")).2 =
      [⟨"u1", "a@b.c", "hh", false⟩] :=
  (enroll_complete_ignores_update_result [⟨"u1", "a@b.c", "hh", false⟩] "ghost"
    (some "s1") (by decide) (by decide)).2.1

end ActionId
